import Mathlib

/-!
Verification of the piggy-api portfolio service against its specification.

The routers are embedded shallowly: the relational store is a `Db` record of
row lists, each request handler becomes a pure function from a store and a
validated input to a result and an updated store.  Monetary amounts and
prices are modelled as rationals, dates as integers, and the opaque cuid
identifiers as natural numbers drawn from a per-store counter `nextId`
(mirroring the fact that the database generates fresh ids).  A handler that
throws returns an error value and leaves the store unchanged, matching the
fact that every throw in the source happens before any write.
-/

namespace PiggyApi

/-- Position status enum from the zod schema PositionStatusSchema. -/
inductive PStatus
  | OPEN
  | CLOSED
  | PARTIAL
deriving DecidableEq, Repr

/-- Position type enum from PositionTypeSchema. -/
inductive PosType
  | LONG
  | SHORT
deriving DecidableEq, Repr

/-- Transaction type enum from TransactionTypeSchema. -/
inductive TxType
  | BUY
  | SELL
  | DIVIDEND
  | SPLIT
  | BONUS
deriving DecidableEq, Repr

/-- The error taxonomy of the spec; the source throws `Error` objects whose
messages the spec classifies as NotFoundError, InvalidStateError,
ConflictError and ValidationError. -/
inductive AppError
  | notFound
  | invalidState
  | conflict
  | validation
deriving DecidableEq, Repr

/-- User row (server-generated updatedAt is outside the model). -/
structure UserRow where
  id : Nat
  email : String
  name : Option String
  createdAt : Int
deriving DecidableEq, Repr

/-- Exchange row. -/
structure Exchange where
  id : Nat
  code : String
  name : String
  country : String
  timezone : String
  currency : String
  isActive : Bool
deriving DecidableEq, Repr

/-- Stock row. -/
structure Stock where
  id : Nat
  symbol : String
  name : String
  sector : Option String
  industry : Option String
  marketCap : Option ℚ
  exchangeId : Nat
  isActive : Bool
deriving DecidableEq, Repr

/-- PriceHistory row; the source field named `open` is rendered `openP`
because `open` is a Lean keyword. -/
structure PriceBar where
  stockId : Nat
  date : Int
  openP : ℚ
  high : ℚ
  low : ℚ
  close : ℚ
  volume : Option ℚ
deriving DecidableEq, Repr

/-- Position row (server-generated createdAt/updatedAt are outside the
model; list ordering keys used by the claims are openDate). -/
structure Position where
  id : Nat
  userId : Nat
  stockId : Nat
  status : PStatus
  positionType : PosType
  openDate : Int
  entryPrice : ℚ
  quantity : Nat
  buyFees : ℚ
  totalBuyValue : ℚ
  capitalAllocated : ℚ
  closeDate : Option Int
  exitPrice : Option ℚ
  totalSellValue : Option ℚ
  sellFees : Option ℚ
  realizedPnL : Option ℚ
  returnPercentage : Option ℚ
  stopLossPrice : Option ℚ
  takeProfitPrice : Option ℚ
  riskAmount : Option ℚ
  riskPercentage : Option ℚ
  openReason : String
  strategy : Option String
  setupType : Option String
  timeframe : Option String
  tags : List String
  notes : Option String
  tradeGrade : Option String
  lessonsLearned : Option String
deriving DecidableEq, Repr

/-- Transaction row. -/
structure Transaction where
  id : Nat
  positionId : Nat
  type : TxType
  date : Int
  quantity : Nat
  price : ℚ
  totalValue : ℚ
  fees : ℚ
  executionTime : Option Int
  brokerRef : Option String
  orderType : Option String
  notes : Option String
deriving DecidableEq, Repr

/-- Watchlist row, unique on (userId, stockId) in the schema. -/
structure WatchlistRow where
  id : Nat
  userId : Nat
  stockId : Nat
  name : Option String
  notes : Option String
  targetPrice : Option ℚ
  createdAt : Int
deriving DecidableEq, Repr

/-- The relational store: one list per entity plus the id counter used to
model cuid generation. -/
structure Db where
  nextId : Nat
  users : List UserRow
  exchanges : List Exchange
  stocks : List Stock
  priceHistory : List PriceBar
  positions : List Position
  transactions : List Transaction
  watchlist : List WatchlistRow
deriving DecidableEq, Repr

/-- prisma.position.findUnique on id. -/
def findPos (db : Db) (i : Nat) : Option Position :=
  db.positions.find? (fun p => p.id == i)

/-- prisma.transaction.findUnique on id. -/
def findTx (db : Db) (i : Nat) : Option Transaction :=
  db.transactions.find? (fun t => t.id == i)

/-- prisma.exchange.findUnique on id. -/
def findExchange (db : Db) (i : Nat) : Option Exchange :=
  db.exchanges.find? (fun e => e.id == i)

/-- prisma.stock.findUnique on id. -/
def findStock (db : Db) (i : Nat) : Option Stock :=
  db.stocks.find? (fun s => s.id == i)

/-- prisma.user.findUnique on id. -/
def findUser (db : Db) (i : Nat) : Option UserRow :=
  db.users.find? (fun u => u.id == i)

/-- Prisma partial-update semantics for a nullable column: a provided value
replaces the stored one, an absent (undefined) value leaves it unchanged. -/
def mergeOpt (new old : Option α) : Option α :=
  match new with
  | some v => some v
  | none => old

/-- Validated input of positionRouter.create (CreatePositionSchema). -/
structure CreatePositionInput where
  userId : Nat
  stockId : Nat
  openDate : Int
  entryPrice : ℚ
  quantity : Nat
  positionType : PosType
  buyFees : ℚ
  stopLossPrice : Option ℚ
  takeProfitPrice : Option ℚ
  riskAmount : Option ℚ
  riskPercentage : Option ℚ
  openReason : String
  strategy : Option String
  setupType : Option String
  timeframe : Option String
  tags : List String
  notes : Option String
deriving DecidableEq, Repr

/-- Validated input of positionRouter.close (ClosePositionSchema). -/
structure ClosePositionInput where
  positionId : Nat
  closeDate : Int
  exitPrice : ℚ
  sellFees : ℚ
  tradeGrade : Option String
  lessonsLearned : Option String
deriving DecidableEq, Repr

/-- Validated input of positionRouter.update. -/
structure UpdatePositionInput where
  id : Nat
  stopLossPrice : Option ℚ
  takeProfitPrice : Option ℚ
  strategy : Option String
  setupType : Option String
  timeframe : Option String
  tags : Option (List String)
  notes : Option String
deriving DecidableEq, Repr

/-- positionRouter.create: computes totalBuyValue and capitalAllocated,
persists the position with status OPEN and the paired BUY transaction. -/
def createPosition (db : Db) (inp : CreatePositionInput) : Db × Position :=
  let totalBuyValue : ℚ := (inp.quantity : ℚ) * inp.entryPrice
  let capitalAllocated : ℚ := totalBuyValue + inp.buyFees
  let pos : Position :=
    { id := db.nextId
      userId := inp.userId
      stockId := inp.stockId
      status := PStatus.OPEN
      positionType := inp.positionType
      openDate := inp.openDate
      entryPrice := inp.entryPrice
      quantity := inp.quantity
      buyFees := inp.buyFees
      totalBuyValue := totalBuyValue
      capitalAllocated := capitalAllocated
      closeDate := none
      exitPrice := none
      totalSellValue := none
      sellFees := none
      realizedPnL := none
      returnPercentage := none
      stopLossPrice := inp.stopLossPrice
      takeProfitPrice := inp.takeProfitPrice
      riskAmount := inp.riskAmount
      riskPercentage := inp.riskPercentage
      openReason := inp.openReason
      strategy := inp.strategy
      setupType := inp.setupType
      timeframe := inp.timeframe
      tags := inp.tags
      notes := inp.notes
      tradeGrade := none
      lessonsLearned := none }
  let buyTx : Transaction :=
    { id := db.nextId + 1
      positionId := db.nextId
      type := TxType.BUY
      date := inp.openDate
      quantity := inp.quantity
      price := inp.entryPrice
      totalValue := totalBuyValue
      fees := inp.buyFees
      executionTime := none
      brokerRef := none
      orderType := none
      notes := none }
  ({ db with
      nextId := db.nextId + 2
      positions := db.positions ++ [pos]
      transactions := db.transactions ++ [buyTx] }, pos)

/-- The field update applied by positionRouter.close to the matched
position row. -/
def closedFields (p : Position) (inp : ClosePositionInput) : Position :=
  let totalSellValue : ℚ := (p.quantity : ℚ) * inp.exitPrice
  let realizedPnL : ℚ := totalSellValue - p.totalBuyValue - p.buyFees - inp.sellFees
  let returnPercentage : ℚ := realizedPnL / p.capitalAllocated * 100
  { p with
      status := PStatus.CLOSED
      closeDate := some inp.closeDate
      exitPrice := some inp.exitPrice
      totalSellValue := some totalSellValue
      sellFees := some inp.sellFees
      realizedPnL := some realizedPnL
      returnPercentage := some returnPercentage
      tradeGrade := mergeOpt inp.tradeGrade p.tradeGrade
      lessonsLearned := mergeOpt inp.lessonsLearned p.lessonsLearned }

/-- positionRouter.close: looks the position up, rejects an unknown id and
a non-OPEN status, otherwise writes the exit fields and appends the SELL
transaction mirroring the close. -/
def closePosition (db : Db) (inp : ClosePositionInput) :
    Except AppError Position × Db :=
  match findPos db inp.positionId with
  | none => (Except.error AppError.notFound, db)
  | some position =>
    if position.status = PStatus.OPEN then
      let totalSellValue : ℚ := (position.quantity : ℚ) * inp.exitPrice
      let sellTx : Transaction :=
        { id := db.nextId
          positionId := inp.positionId
          type := TxType.SELL
          date := inp.closeDate
          quantity := position.quantity
          price := inp.exitPrice
          totalValue := totalSellValue
          fees := inp.sellFees
          executionTime := none
          brokerRef := none
          orderType := none
          notes := none }
      (Except.ok (closedFields position inp),
       { db with
          nextId := db.nextId + 1
          positions := db.positions.map
            (fun p => if p.id == inp.positionId then closedFields p inp else p)
          transactions := db.transactions ++ [sellTx] })
    else (Except.error AppError.invalidState, db)

/-- The merge applied by positionRouter.update: only provided fields are
written; nothing is recomputed. -/
def mergedUpdate (p : Position) (inp : UpdatePositionInput) : Position :=
  { p with
      stopLossPrice := mergeOpt inp.stopLossPrice p.stopLossPrice
      takeProfitPrice := mergeOpt inp.takeProfitPrice p.takeProfitPrice
      strategy := mergeOpt inp.strategy p.strategy
      setupType := mergeOpt inp.setupType p.setupType
      timeframe := mergeOpt inp.timeframe p.timeframe
      tags := inp.tags.getD p.tags
      notes := mergeOpt inp.notes p.notes }

/-- positionRouter.update: prisma.position.update merges the provided
fields into the matched row and fails on an unknown id. -/
def updatePosition (db : Db) (inp : UpdatePositionInput) :
    Except AppError Position × Db :=
  match findPos db inp.id with
  | none => (Except.error AppError.notFound, db)
  | some position =>
    (Except.ok (mergedUpdate position inp),
     { db with
        positions := db.positions.map
          (fun p => if p.id == inp.id then mergedUpdate p inp else p) })

/-- Dependent-row count used by positionRouter.delete. -/
def txCountOf (db : Db) (posId : Nat) : Nat :=
  db.transactions.countP (fun t => t.positionId == posId)

/-- positionRouter.delete: blocked while the position owns any
transaction, otherwise removes the row (prisma delete of a missing row
throws, surfaced as not-found). -/
def deletePosition (db : Db) (i : Nat) : Except AppError Unit × Db :=
  if 0 < txCountOf db i then (Except.error AppError.conflict, db)
  else
    match findPos db i with
    | none => (Except.error AppError.notFound, db)
    | some _ =>
      (Except.ok (),
       { db with positions := db.positions.filter (fun p => p.id != i) })

/-- Dependent-row count used by exchangeRouter.delete. -/
def stockCountOf (db : Db) (exId : Nat) : Nat :=
  db.stocks.countP (fun s => s.exchangeId == exId)

/-- Dependent-row count used by stockRouter.delete. -/
def posCountOfStock (db : Db) (sid : Nat) : Nat :=
  db.positions.countP (fun p => p.stockId == sid)

/-- Dependent-row count used by the user delete handlers. -/
def posCountOfUser (db : Db) (uid : Nat) : Nat :=
  db.positions.countP (fun p => p.userId == uid)

/-- exchangeRouter.delete: blocked while the exchange owns any stock. -/
def deleteExchange (db : Db) (i : Nat) : Except AppError Unit × Db :=
  if 0 < stockCountOf db i then (Except.error AppError.conflict, db)
  else
    match findExchange db i with
    | none => (Except.error AppError.notFound, db)
    | some _ =>
      (Except.ok (),
       { db with exchanges := db.exchanges.filter (fun e => e.id != i) })

/-- stockRouter.delete: blocked while the stock owns any position;
otherwise the price history rows are deleted explicitly and then the
stock. -/
def deleteStock (db : Db) (i : Nat) : Except AppError Unit × Db :=
  if 0 < posCountOfStock db i then (Except.error AppError.conflict, db)
  else
    match findStock db i with
    | none => (Except.error AppError.notFound, db)
    | some _ =>
      (Except.ok (),
       { db with
          priceHistory := db.priceHistory.filter (fun b => b.stockId != i)
          stocks := db.stocks.filter (fun s => s.id != i) })

/-- The user delete handler (REST router.delete and the identical RPC
userRouter.delete): blocked while the user owns any position. -/
def deleteUser (db : Db) (i : Nat) : Except AppError Unit × Db :=
  if 0 < posCountOfUser db i then (Except.error AppError.conflict, db)
  else
    match findUser db i with
    | none => (Except.error AppError.notFound, db)
    | some _ =>
      (Except.ok (),
       { db with users := db.users.filter (fun u => u.id != i) })

/-- The position operations of the lifecycle, for stating the terminality
invariant over operation sequences. -/
inductive PosOp
  | create (inp : CreatePositionInput)
  | close (inp : ClosePositionInput)
  | update (inp : UpdatePositionInput)
  | delete (i : Nat)

/-- The store effect of one position operation; a failing handler leaves
the store unchanged. -/
def applyOp (db : Db) (op : PosOp) : Db :=
  match op with
  | PosOp.create inp => (createPosition db inp).1
  | PosOp.close inp => (closePosition db inp).2
  | PosOp.update inp => (updatePosition db inp).2
  | PosOp.delete i => (deletePosition db i).2

/-- The store after a sequence of position operations. -/
def runOps (db : Db) (ops : List PosOp) : Db :=
  ops.foldl applyOp db

/-- prisma.priceHistory.findFirst ordered by date descending: the matching
row with the greatest date (the first such row on ties). -/
def latestPrice (db : Db) (sid : Nat) : Option PriceBar :=
  (db.priceHistory.filter (fun b => b.stockId == sid)).foldl
    (fun acc b =>
      match acc with
      | none => some b
      | some m => if m.date < b.date then some b else acc) none

/-- One element of the list built by watchlistRouter.getPriceAlerts. -/
structure AlertRow where
  item : WatchlistRow
  stock : Option Stock
  currentPrice : Option ℚ
  triggered : Bool
deriving DecidableEq, Repr

/-- The per-row enrichment of getPriceAlerts: the stock, the latest close
and the triggered flag (false when no price history exists). -/
def alertFor (db : Db) (w : WatchlistRow) : AlertRow :=
  let lp := latestPrice db w.stockId
  let trig : Bool :=
    match lp, w.targetPrice with
    | some bar, some t => decide (t ≤ bar.close)
    | _, _ => false
  { item := w
    stock := findStock db w.stockId
    currentPrice := lp.map (fun b => b.close)
    triggered := trig }

/-- watchlistRouter.getPriceAlerts: the watchlist rows of the user having
a non-null targetPrice, each enriched with its triggered flag, together
with the triggered subset. -/
def getPriceAlerts (db : Db) (uid : Nat) : List AlertRow × List AlertRow :=
  let rows := db.watchlist.filter (fun w => w.userId == uid && w.targetPrice.isSome)
  let enriched := rows.map (alertFor db)
  (enriched, enriched.filter (fun e => e.triggered))

/-- Validated input of transactionRouter.update. -/
structure UpdateTransactionInput where
  id : Nat
  date : Option Int
  quantity : Option Nat
  price : Option ℚ
  fees : Option ℚ
  executionTime : Option Int
  brokerRef : Option String
  orderType : Option String
  notes : Option String
deriving DecidableEq, Repr

/-- The merge of the non-quantity, non-price fields of a transaction
update (the otherUpdates object of the source). -/
def mergeOtherTxFields (t : Transaction) (inp : UpdateTransactionInput) : Transaction :=
  { t with
      date := inp.date.getD t.date
      fees := inp.fees.getD t.fees
      executionTime := mergeOpt inp.executionTime t.executionTime
      brokerRef := mergeOpt inp.brokerRef t.brokerRef
      orderType := mergeOpt inp.orderType t.orderType
      notes := mergeOpt inp.notes t.notes }

/-- transactionRouter.update: when quantity or price is provided the row
is fetched (unknown id rejected) and totalValue recomputed from the merged
quantity and price; otherwise the other fields merge directly. -/
def updateTransaction (db : Db) (inp : UpdateTransactionInput) :
    Except AppError Transaction × Db :=
  if inp.quantity.isSome || inp.price.isSome then
    match findTx db inp.id with
    | none => (Except.error AppError.notFound, db)
    | some cur =>
      let newQuantity := inp.quantity.getD cur.quantity
      let newPrice := inp.price.getD cur.price
      let totalValue : ℚ := (newQuantity : ℚ) * newPrice
      let upd := fun (t : Transaction) =>
        { mergeOtherTxFields t inp with
            quantity := newQuantity
            price := newPrice
            totalValue := totalValue }
      (Except.ok (upd cur),
       { db with
          transactions := db.transactions.map
            (fun t => if t.id == inp.id then upd t else t) })
  else
    match findTx db inp.id with
    | none => (Except.error AppError.notFound, db)
    | some cur =>
      (Except.ok (mergeOtherTxFields cur inp),
       { db with
          transactions := db.transactions.map
            (fun t => if t.id == inp.id then mergeOtherTxFields t inp else t) })

/-- Insertion step of the order-by sort applied by the list endpoints. -/
def insertBy (le : α → α → Bool) (x : α) : List α → List α
  | [] => [x]
  | y :: ys => if le x y then x :: y :: ys else y :: insertBy le x ys

/-- The order-by sort applied by the list endpoints. -/
def sortBy (le : α → α → Bool) (l : List α) : List α :=
  l.foldr (insertBy le) []

/-- Validated input of positionRouter.list (GetPositionsSchema). -/
structure GetPositionsInput where
  userId : Nat
  status : Option PStatus
  stockId : Option Nat
  limit : Nat
  offset : Nat
deriving DecidableEq, Repr

/-- The where clause built by positionRouter.list. -/
def posMatches (inp : GetPositionsInput) (p : Position) : Bool :=
  p.userId == inp.userId
    && (match inp.status with
        | some s => decide (p.status = s)
        | none => true)
    && (match inp.stockId with
        | some sid => p.stockId == sid
        | none => true)

/-- positionRouter.list: filter, order by openDate descending, paginate;
returns the page, the total matching count, and hasMore. -/
def listPositions (db : Db) (inp : GetPositionsInput) :
    List Position × Nat × Bool :=
  let matching := db.positions.filter (posMatches inp)
  let ordered := sortBy (fun a b => decide (b.openDate ≤ a.openDate)) matching
  ((ordered.drop inp.offset).take inp.limit, matching.length,
   decide (inp.offset + inp.limit < matching.length))

/-- Validated input of transactionRouter.list (GetTransactionsSchema). -/
structure GetTransactionsInput where
  positionId : Option Nat
  userId : Option Nat
  type : Option TxType
  startDate : Option Int
  endDate : Option Int
  limit : Nat
  offset : Nat
deriving DecidableEq, Repr

/-- The where clause built by transactionRouter.list; the userId filter
goes through the owning position relation. -/
def txMatches (db : Db) (inp : GetTransactionsInput) (t : Transaction) : Bool :=
  (match inp.positionId with
   | some pid => t.positionId == pid
   | none => true)
    && (match inp.userId with
        | some uid => db.positions.any (fun p => p.id == t.positionId && p.userId == uid)
        | none => true)
    && (match inp.type with
        | some ty => decide (t.type = ty)
        | none => true)
    && (match inp.startDate with
        | some s => decide (s ≤ t.date)
        | none => true)
    && (match inp.endDate with
        | some e => decide (t.date ≤ e)
        | none => true)

/-- transactionRouter.list: filter, order by date descending, paginate. -/
def listTransactions (db : Db) (inp : GetTransactionsInput) :
    List Transaction × Nat × Bool :=
  let matching := db.transactions.filter (txMatches db inp)
  let ordered := sortBy (fun a b => decide (b.date ≤ a.date)) matching
  ((ordered.drop inp.offset).take inp.limit, matching.length,
   decide (inp.offset + inp.limit < matching.length))

/-- userRouter.list: no filter, order by createdAt descending, paginate. -/
def listUsers (db : Db) (limit offset : Nat) :
    List UserRow × Nat × Bool :=
  let ordered := sortBy (fun a b => decide (b.createdAt ≤ a.createdAt)) db.users
  ((ordered.drop offset).take limit, db.users.length,
   decide (offset + limit < db.users.length))

/-- Case-insensitive substring test modelling the prisma contains filter
with insensitive mode. -/
def containsCI (needle hay : String) : Bool :=
  needle == "" || (hay.toLower.splitOn needle.toLower).length != 1

/-- Validated input of stockRouter.list. -/
structure GetStocksInput where
  exchangeId : Option Nat
  sector : Option String
  search : Option String
  isActive : Option Bool
  limit : Nat
  offset : Nat
deriving DecidableEq, Repr

/-- The where clause built by stockRouter.list. -/
def stockMatches (inp : GetStocksInput) (s : Stock) : Bool :=
  (match inp.exchangeId with
   | some e => s.exchangeId == e
   | none => true)
    && (match inp.sector with
        | some sec => s.sector == some sec
        | none => true)
    && (match inp.isActive with
        | some a => s.isActive == a
        | none => true)
    && (match inp.search with
        | some q => containsCI q s.symbol || containsCI q s.name
        | none => true)

/-- stockRouter.list: filter, order by symbol ascending, paginate. -/
def listStocks (db : Db) (inp : GetStocksInput) :
    List Stock × Nat × Bool :=
  let matching := db.stocks.filter (stockMatches inp)
  let ordered := sortBy (fun a b => decide (a.symbol ≤ b.symbol)) matching
  ((ordered.drop inp.offset).take inp.limit, matching.length,
   decide (inp.offset + inp.limit < matching.length))

/-- watchlistRouter.list: filter on userId, order by createdAt descending,
paginate. -/
def listWatchlist (db : Db) (uid limit offset : Nat) :
    List WatchlistRow × Nat × Bool :=
  let matching := db.watchlist.filter (fun w => w.userId == uid)
  let ordered := sortBy (fun a b => decide (b.createdAt ≤ a.createdAt)) matching
  ((ordered.drop offset).take limit, matching.length,
   decide (offset + limit < matching.length))

/-- The summary object of the portfolio endpoints. -/
structure PortfolioSummary where
  totalOpenPositions : Nat
  totalInvested : ℚ
  totalValue : ℚ
  totalRealizedPnL : ℚ
  avgReturn : ℚ
  totalClosedPositions : Nat
deriving DecidableEq, Repr

/-- userRouter.getPortfolioSummary (RPC): aggregates over the OPEN and
CLOSED positions of the user; the average return is guarded on a
non-empty closed list (grouping and recent lists are presentation and not
modelled). -/
def getPortfolioSummary (db : Db) (uid : Nat) : PortfolioSummary :=
  let openPositions := db.positions.filter
    (fun p => p.userId == uid && decide (p.status = PStatus.OPEN))
  let closedPositions := db.positions.filter
    (fun p => p.userId == uid && decide (p.status = PStatus.CLOSED))
  { totalOpenPositions := openPositions.length
    totalInvested := openPositions.foldl (fun sum p => sum + p.capitalAllocated) 0
    totalValue := openPositions.foldl (fun sum p => sum + p.totalBuyValue) 0
    totalRealizedPnL := closedPositions.foldl (fun sum p => sum + p.realizedPnL.getD 0) 0
    avgReturn :=
      if 0 < closedPositions.length then
        (closedPositions.foldl (fun sum p => sum + p.returnPercentage.getD 0) 0)
          / (closedPositions.length : ℚ)
      else 0
    totalClosedPositions := closedPositions.length }

/-- The REST handler for the user portfolio route, duplicating the RPC
aggregation line for line. -/
def portfolioSummaryRest (db : Db) (uid : Nat) : PortfolioSummary :=
  let openPositions := db.positions.filter
    (fun p => p.userId == uid && decide (p.status = PStatus.OPEN))
  let closedPositions := db.positions.filter
    (fun p => p.userId == uid && decide (p.status = PStatus.CLOSED))
  { totalOpenPositions := openPositions.length
    totalInvested := openPositions.foldl (fun sum p => sum + p.capitalAllocated) 0
    totalValue := openPositions.foldl (fun sum p => sum + p.totalBuyValue) 0
    totalRealizedPnL := closedPositions.foldl (fun sum p => sum + p.realizedPnL.getD 0) 0
    avgReturn :=
      if 0 < closedPositions.length then
        (closedPositions.foldl (fun sum p => sum + p.returnPercentage.getD 0) 0)
          / (closedPositions.length : ℚ)
      else 0
    totalClosedPositions := closedPositions.length }

/-- Concrete OPEN position matching the worked example of the spec:
quantity 10, entryPrice 100, buyFees 5. -/
def openSample : Position :=
  { id := 1
    userId := 2
    stockId := 3
    status := PStatus.OPEN
    positionType := PosType.LONG
    openDate := 0
    entryPrice := 100
    quantity := 10
    buyFees := 5
    totalBuyValue := 1000
    capitalAllocated := 1005
    closeDate := none
    exitPrice := none
    totalSellValue := none
    sellFees := none
    realizedPnL := none
    returnPercentage := none
    stopLossPrice := none
    takeProfitPrice := none
    riskAmount := none
    riskPercentage := none
    openReason := "breakout setup"
    strategy := none
    setupType := none
    timeframe := none
    tags := []
    notes := none
    tradeGrade := none
    lessonsLearned := none }

/-- Concrete CLOSED position. -/
def closedSample : Position :=
  { openSample with
      id := 4
      status := PStatus.CLOSED
      closeDate := some 5
      exitPrice := some 120
      totalSellValue := some 1200
      sellFees := some 3
      realizedPnL := some 192
      returnPercentage := some (1280 / 67) }

/-- Concrete BUY transaction owned by the closed position. -/
def buyTxSample : Transaction :=
  { id := 6
    positionId := 4
    type := TxType.BUY
    date := 0
    quantity := 10
    price := 100
    totalValue := 1000
    fees := 5
    executionTime := none
    brokerRef := none
    orderType := none
    notes := none }

/-- Concrete store used by the witnesses. -/
def sampleDb : Db :=
  { nextId := 10
    users := [{ id := 2, email := "trader@example.com", name := none, createdAt := 0 }]
    exchanges := [{ id := 5, code := "NYSE", name := "New York Stock Exchange",
                    country := "US", timezone := "America/New_York",
                    currency := "USD", isActive := true }]
    stocks := [{ id := 3, symbol := "ACME", name := "Acme Corp", sector := none,
                 industry := none, marketCap := none, exchangeId := 5, isActive := true }]
    priceHistory := [{ stockId := 3, date := 1, openP := 55, high := 61,
                       low := 50, close := 60, volume := none }]
    positions := [openSample, closedSample]
    transactions := [buyTxSample]
    watchlist := [{ id := 7, userId := 2, stockId := 3, name := none,
                    notes := none, targetPrice := some 50, createdAt := 0 }] }

/-- Concrete close input matching the worked example of the spec:
exitPrice 120, sellFees 3, against position id 1. -/
def closeSampleInput : ClosePositionInput :=
  { positionId := 1
    closeDate := 5
    exitPrice := 120
    sellFees := 3
    tradeGrade := none
    lessonsLearned := none }

/-- Concrete create input matching the worked example of the spec. -/
def createSampleInput : CreatePositionInput :=
  { userId := 2
    stockId := 3
    openDate := 0
    entryPrice := 100
    quantity := 10
    positionType := PosType.LONG
    buyFees := 5
    stopLossPrice := none
    takeProfitPrice := none
    riskAmount := none
    riskPercentage := none
    openReason := "breakout setup"
    strategy := none
    setupType := none
    timeframe := none
    tags := []
    notes := none }

theorem find?_filter_of_imp (l : List α) (pred q : α → Bool)
    (h : ∀ x, pred x = true → q x = true) :
    (l.filter q).find? pred = l.find? pred := by
  induction l with
  | nil => rfl
  | cons a l ih =>
    by_cases hqa : q a = true
    · rw [List.filter_cons_of_pos hqa]
      by_cases hpa : pred a = true
      · rw [List.find?_cons_of_pos _ hpa, List.find?_cons_of_pos _ hpa]
      · rw [List.find?_cons_of_neg _ hpa, List.find?_cons_of_neg _ hpa, ih]
    · have hpa : ¬pred a = true := fun hp => hqa (h a hp)
      rw [List.filter_cons_of_neg hqa, List.find?_cons_of_neg _ hpa, ih]

theorem find?_filter_none (l : List α) (pred q : α → Bool)
    (h : ∀ x, pred x = true → q x = false) :
    (l.filter q).find? pred = none := by
  rw [List.find?_eq_none]
  intro x hx hpx
  obtain ⟨hmem, hq⟩ := List.mem_filter.mp hx
  rw [h x hpx] at hq
  exact Bool.false_ne_true hq

theorem find?_map_pred (f : α → α) (pred : α → Bool)
    (h : ∀ x, pred (f x) = pred x) (l : List α) :
    (l.map f).find? pred = (l.find? pred).map f := by
  rw [List.find?_map]
  have hcomp : pred ∘ f = pred := funext h
  rw [hcomp]

/-- Claim C1: closing a position p with exit price e and sell fees s
computes totalSellValue = p.quantity * e, realizedPnL = totalSellValue -
p.totalBuyValue - p.buyFees - s and returnPercentage = realizedPnL /
p.capitalAllocated * 100, sets the status to CLOSED, and appends a SELL
transaction with date = closeDate, quantity = p.quantity, price = e,
totalValue = totalSellValue and fees = s. -/
theorem close_computes_exit_values (db : Db) (inp : ClosePositionInput) (p : Position)
    (hfind : findPos db inp.positionId = some p)
    (hopen : p.status = PStatus.OPEN)
    (hexit : 0 < inp.exitPrice) (hfees : 0 ≤ inp.sellFees) :
    ∃ p', (closePosition db inp).1 = Except.ok p' ∧
      p'.totalSellValue = some ((p.quantity : ℚ) * inp.exitPrice) ∧
      p'.realizedPnL =
        some ((p.quantity : ℚ) * inp.exitPrice - p.totalBuyValue - p.buyFees - inp.sellFees) ∧
      p'.returnPercentage =
        some (((p.quantity : ℚ) * inp.exitPrice - p.totalBuyValue - p.buyFees - inp.sellFees)
          / p.capitalAllocated * 100) ∧
      p'.status = PStatus.CLOSED ∧
      p'.closeDate = some inp.closeDate ∧
      p'.exitPrice = some inp.exitPrice ∧
      p'.sellFees = some inp.sellFees ∧
      (closePosition db inp).2.transactions = db.transactions ++
        [{ id := db.nextId
           positionId := inp.positionId
           type := TxType.SELL
           date := inp.closeDate
           quantity := p.quantity
           price := inp.exitPrice
           totalValue := (p.quantity : ℚ) * inp.exitPrice
           fees := inp.sellFees
           executionTime := none
           brokerRef := none
           orderType := none
           notes := none }] := by
  refine ⟨closedFields p inp, ?_, rfl, rfl, rfl, rfl, rfl, rfl, rfl, ?_⟩
  · unfold closePosition
    rw [hfind]
    simp [hopen]
  · unfold closePosition
    rw [hfind]
    simp [hopen]

/-- Witness for close_computes_exit_values at the worked example of the
spec: quantity 10, entryPrice 100, buyFees 5, exitPrice 120, sellFees 3
give totalSellValue 1200, realizedPnL 192 and returnPercentage
192 / 1005 * 100. -/
theorem close_computes_exit_values_witness :
    ∃ p', (closePosition sampleDb closeSampleInput).1 = Except.ok p' ∧
      p'.totalSellValue = some 1200 ∧
      p'.realizedPnL = some 192 ∧
      p'.returnPercentage = some (192 / 1005 * 100) ∧
      p'.status = PStatus.CLOSED := by
  obtain ⟨p', hok, h1, h2, h3, h4, -, -, -, -⟩ :=
    close_computes_exit_values sampleDb closeSampleInput openSample (by decide) (by decide)
      (by norm_num [closeSampleInput]) (by norm_num [closeSampleInput])
  refine ⟨p', hok, ?_, ?_, ?_, h4⟩
  · rw [h1]; norm_num [openSample, closeSampleInput]
  · rw [h2]; norm_num [openSample, closeSampleInput]
  · rw [h3]; norm_num [openSample, closeSampleInput]

/-- Claim C2: creating a position persists totalBuyValue = quantity *
entryPrice, capitalAllocated = totalBuyValue + buyFees and status OPEN,
together with exactly one BUY transaction whose date, quantity, price,
totalValue and fees mirror the creation input. -/
theorem create_computes_buy_values (db : Db) (inp : CreatePositionInput)
    (htx : ∀ t ∈ db.transactions, t.positionId < db.nextId)
    (hprice : 0 < inp.entryPrice) (hqty : 0 < inp.quantity)
    (hfees : 0 ≤ inp.buyFees) (hreason : inp.openReason ≠ "") :
    (createPosition db inp).2.totalBuyValue = (inp.quantity : ℚ) * inp.entryPrice ∧
    (createPosition db inp).2.capitalAllocated =
      (inp.quantity : ℚ) * inp.entryPrice + inp.buyFees ∧
    (createPosition db inp).2.status = PStatus.OPEN ∧
    (createPosition db inp).2 ∈ (createPosition db inp).1.positions ∧
    (createPosition db inp).1.transactions.filter
        (fun t => t.positionId == (createPosition db inp).2.id) =
      [{ id := db.nextId + 1
         positionId := db.nextId
         type := TxType.BUY
         date := inp.openDate
         quantity := inp.quantity
         price := inp.entryPrice
         totalValue := (inp.quantity : ℚ) * inp.entryPrice
         fees := inp.buyFees
         executionTime := none
         brokerRef := none
         orderType := none
         notes := none }] := by
  refine ⟨rfl, rfl, rfl, ?_, ?_⟩
  · show (createPosition db inp).2 ∈ db.positions ++ [(createPosition db inp).2]
    exact List.mem_append.mpr (Or.inr (List.mem_singleton.mpr rfl))
  · show (db.transactions ++
        [({ id := db.nextId + 1
            positionId := db.nextId
            type := TxType.BUY
            date := inp.openDate
            quantity := inp.quantity
            price := inp.entryPrice
            totalValue := (inp.quantity : ℚ) * inp.entryPrice
            fees := inp.buyFees
            executionTime := none
            brokerRef := none
            orderType := none
            notes := none } : Transaction)]).filter
          (fun t => t.positionId == db.nextId) = _
    rw [List.filter_append]
    have hnil : db.transactions.filter (fun t => t.positionId == db.nextId) = [] := by
      rw [List.filter_eq_nil_iff]
      intro t ht hbeq
      have hlt := htx t ht
      have heq : t.positionId = db.nextId := by simpa using hbeq
      omega
    rw [hnil, List.nil_append, List.filter_cons_of_pos (by simp)]
    rfl

/-- Witness for create_computes_buy_values at the worked example of the
spec: quantity 10, entryPrice 100, buyFees 5. -/
theorem create_computes_buy_values_witness :
    (createPosition sampleDb createSampleInput).2.totalBuyValue = 1000 ∧
    (createPosition sampleDb createSampleInput).2.capitalAllocated = 1005 ∧
    (createPosition sampleDb createSampleInput).2.status = PStatus.OPEN := by
  obtain ⟨h1, h2, h3, -, -⟩ :=
    create_computes_buy_values sampleDb createSampleInput (by decide)
      (by norm_num [createSampleInput]) (by decide) (by norm_num [createSampleInput])
      (by decide)
  refine ⟨?_, ?_, h3⟩
  · rw [h1]; norm_num [createSampleInput]
  · rw [h2]; norm_num [createSampleInput]

/-- Claim C3: close rejects an unknown position id with NotFoundError and
a non-OPEN position with InvalidStateError; in both cases the store is
unchanged, so no position field changes and no SELL transaction is
appended. -/
theorem close_rejects_invalid (db : Db) (inp : ClosePositionInput) :
    (findPos db inp.positionId = none →
      closePosition db inp = (Except.error AppError.notFound, db)) ∧
    (∀ p, findPos db inp.positionId = some p → p.status ≠ PStatus.OPEN →
      closePosition db inp = (Except.error AppError.invalidState, db)) := by
  constructor
  · intro h
    unfold closePosition
    rw [h]
  · intro p hp hst
    unfold closePosition
    rw [hp]
    simp [hst]

/-- Witness for close_rejects_invalid: on the sample store, closing the
unknown id 99 reports not-found and closing the CLOSED position 4 reports
an invalid state, leaving the store unchanged both times. -/
theorem close_rejects_invalid_witness :
    closePosition sampleDb { closeSampleInput with positionId := 99 } =
      (Except.error AppError.notFound, sampleDb) ∧
    closePosition sampleDb { closeSampleInput with positionId := 4 } =
      (Except.error AppError.invalidState, sampleDb) := by
  constructor
  · exact (close_rejects_invalid sampleDb _).1 (by decide)
  · exact (close_rejects_invalid sampleDb _).2 closedSample (by rfl) (by decide)

/-- Claim C5: position update merges only the provided fields; every other
field, in particular totalBuyValue, capitalAllocated, status, quantity and
entryPrice, is unchanged and nothing is recomputed. -/
theorem update_merges_only_provided (db : Db) (inp : UpdatePositionInput) (p : Position)
    (hfind : findPos db inp.id = some p) :
    ∃ p', (updatePosition db inp).1 = Except.ok p' ∧
      p'.totalBuyValue = p.totalBuyValue ∧
      p'.capitalAllocated = p.capitalAllocated ∧
      p'.status = p.status ∧
      p'.quantity = p.quantity ∧
      p'.entryPrice = p.entryPrice ∧
      p'.stopLossPrice = mergeOpt inp.stopLossPrice p.stopLossPrice ∧
      p'.takeProfitPrice = mergeOpt inp.takeProfitPrice p.takeProfitPrice ∧
      p'.strategy = mergeOpt inp.strategy p.strategy ∧
      p'.setupType = mergeOpt inp.setupType p.setupType ∧
      p'.timeframe = mergeOpt inp.timeframe p.timeframe ∧
      p'.tags = inp.tags.getD p.tags ∧
      p'.notes = mergeOpt inp.notes p.notes ∧
      p'.id = p.id ∧
      p'.userId = p.userId ∧
      p'.stockId = p.stockId ∧
      p'.positionType = p.positionType ∧
      p'.openDate = p.openDate ∧
      p'.buyFees = p.buyFees ∧
      p'.closeDate = p.closeDate ∧
      p'.exitPrice = p.exitPrice ∧
      p'.totalSellValue = p.totalSellValue ∧
      p'.sellFees = p.sellFees ∧
      p'.realizedPnL = p.realizedPnL ∧
      p'.returnPercentage = p.returnPercentage ∧
      p'.riskAmount = p.riskAmount ∧
      p'.riskPercentage = p.riskPercentage ∧
      p'.openReason = p.openReason ∧
      p'.tradeGrade = p.tradeGrade ∧
      p'.lessonsLearned = p.lessonsLearned := by
  have hok : (updatePosition db inp).1 = Except.ok (mergedUpdate p inp) := by
    unfold updatePosition
    rw [hfind]
  exact ⟨mergedUpdate p inp, hok, rfl, rfl, rfl, rfl, rfl, rfl, rfl, rfl, rfl, rfl, rfl,
    rfl, rfl, rfl, rfl, rfl, rfl, rfl, rfl, rfl, rfl, rfl, rfl, rfl, rfl, rfl, rfl, rfl, rfl⟩

/-- Witness for update_merges_only_provided: updating the stop loss of the
sample OPEN position changes that field and leaves the derived values
untouched. -/
theorem update_merges_only_provided_witness :
    ∃ p', (updatePosition sampleDb
        { id := 1
          stopLossPrice := some 90
          takeProfitPrice := none
          strategy := some "momentum"
          setupType := none
          timeframe := none
          tags := none
          notes := none }).1 = Except.ok p' ∧
      p'.totalBuyValue = 1000 ∧
      p'.capitalAllocated = 1005 ∧
      p'.status = PStatus.OPEN ∧
      p'.quantity = 10 ∧
      p'.stopLossPrice = some 90 ∧
      p'.strategy = some "momentum" := by
  obtain ⟨p', hok, h1, h2, h3, h4, -, h6, -, h8, hrest⟩ :=
    update_merges_only_provided sampleDb
      { id := 1
        stopLossPrice := some 90
        takeProfitPrice := none
        strategy := some "momentum"
        setupType := none
        timeframe := none
        tags := none
        notes := none } openSample (by rfl)
  refine ⟨p', hok, ?_, ?_, ?_, ?_, ?_, ?_⟩
  · rw [h1]; rfl
  · rw [h2]; rfl
  · rw [h3]; rfl
  · rw [h4]; rfl
  · rw [h6]; rfl
  · rw [h8]; rfl

theorem closedStays_applyOp (db : Db) (op : PosOp) (i : Nat)
    (hlt : i < db.nextId)
    (hall : ∀ q, findPos db i = some q → q.status = PStatus.CLOSED) :
    i < (applyOp db op).nextId ∧
    ∀ q, findPos (applyOp db op) i = some q → q.status = PStatus.CLOSED := by
  cases op with
  | create inp =>
    constructor
    · show i < db.nextId + 2
      omega
    · intro q hq
      have hq' : (db.positions ++ [(createPosition db inp).2]).find?
          (fun p => p.id == i) = some q := hq
      rw [List.find?_append] at hq'
      cases hfl : db.positions.find? (fun p => p.id == i) with
      | some r =>
        rw [hfl] at hq'
        simp only [Option.or] at hq'
        rw [← Option.some.inj hq']
        exact hall r hfl
      | none =>
        rw [hfl] at hq'
        simp only [Option.or] at hq'
        have hne : ¬ ((createPosition db inp).2.id == i) = true := by
          show ¬ (db.nextId == i) = true
          simp only [beq_iff_eq]
          omega
        have hnone : List.find? (fun p => p.id == i) [(createPosition db inp).2] = none :=
          List.find?_eq_none.mpr (by
            intro x hx
            rw [List.mem_singleton] at hx
            subst hx
            exact hne)
        rw [hnone] at hq'
        cases hq'
  | close inp =>
    cases hm : findPos db inp.positionId with
    | none =>
      have hsame : applyOp db (PosOp.close inp) = db := by
        show (closePosition db inp).2 = db
        unfold closePosition
        rw [hm]
      rw [hsame]
      exact ⟨hlt, hall⟩
    | some position =>
      by_cases hst : position.status = PStatus.OPEN
      · have hdb : applyOp db (PosOp.close inp) =
            { db with
                nextId := db.nextId + 1
                positions := db.positions.map
                  (fun p => if p.id == inp.positionId then closedFields p inp else p)
                transactions := db.transactions ++
                  [{ id := db.nextId
                     positionId := inp.positionId
                     type := TxType.SELL
                     date := inp.closeDate
                     quantity := position.quantity
                     price := inp.exitPrice
                     totalValue := (position.quantity : ℚ) * inp.exitPrice
                     fees := inp.sellFees
                     executionTime := none
                     brokerRef := none
                     orderType := none
                     notes := none }] } := by
          show (closePosition db inp).2 = _
          unfold closePosition
          rw [hm]
          simp [hst]
        rw [hdb]
        constructor
        · show i < db.nextId + 1
          omega
        · intro q hq
          have hq' : (db.positions.map
              (fun p => if p.id == inp.positionId then closedFields p inp else p)).find?
              (fun p => p.id == i) = some q := hq
          rw [find?_map_pred _ _ ?hpres] at hq'
          case hpres =>
            intro p
            cases h2 : (p.id == inp.positionId) <;> simp only [h2, if_true, if_false,
              Bool.false_eq_true, if_neg, ite_false, ite_true] <;> rfl
          cases hfl : db.positions.find? (fun p => p.id == i) with
          | none =>
            rw [hfl] at hq'
            cases hq'
          | some r =>
            rw [hfl] at hq'
            simp only [Option.map] at hq'
            have hr := hall r hfl
            have hqe : (if r.id == inp.positionId then closedFields r inp else r) = q :=
              Option.some.inj hq'
            rw [← hqe]
            cases h2 : (r.id == inp.positionId) with
            | false => simpa [h2] using hr
            | true => simp [h2, closedFields]
      · have hsame : applyOp db (PosOp.close inp) = db := by
          show (closePosition db inp).2 = db
          unfold closePosition
          rw [hm]
          simp [hst]
        rw [hsame]
        exact ⟨hlt, hall⟩
  | update inp =>
    cases hm : findPos db inp.id with
    | none =>
      have hsame : applyOp db (PosOp.update inp) = db := by
        show (updatePosition db inp).2 = db
        unfold updatePosition
        rw [hm]
      rw [hsame]
      exact ⟨hlt, hall⟩
    | some position =>
      have hdb : applyOp db (PosOp.update inp) =
          { db with
              positions := db.positions.map
                (fun p => if p.id == inp.id then mergedUpdate p inp else p) } := by
        show (updatePosition db inp).2 = _
        unfold updatePosition
        rw [hm]
      rw [hdb]
      refine ⟨hlt, ?_⟩
      intro q hq
      have hq' : (db.positions.map
          (fun p => if p.id == inp.id then mergedUpdate p inp else p)).find?
          (fun p => p.id == i) = some q := hq
      rw [find?_map_pred _ _ ?hpres2] at hq'
      case hpres2 =>
        intro p
        cases h2 : (p.id == inp.id) <;> simp only [h2, Bool.false_eq_true, if_neg,
          ite_false, ite_true, if_true, if_false] <;> rfl
      cases hfl : db.positions.find? (fun p => p.id == i) with
      | none =>
        rw [hfl] at hq'
        cases hq'
      | some r =>
        rw [hfl] at hq'
        simp only [Option.map] at hq'
        have hr := hall r hfl
        have hqe : (if r.id == inp.id then mergedUpdate r inp else r) = q :=
          Option.some.inj hq'
        rw [← hqe]
        cases h2 : (r.id == inp.id) with
        | false => simpa [h2] using hr
        | true => simpa [h2, mergedUpdate] using hr
  | delete j =>
    by_cases hc : 0 < txCountOf db j
    · have hsame : applyOp db (PosOp.delete j) = db := by
        show (deletePosition db j).2 = db
        unfold deletePosition
        rw [if_pos hc]
      rw [hsame]
      exact ⟨hlt, hall⟩
    · cases hm : findPos db j with
      | none =>
        have hsame : applyOp db (PosOp.delete j) = db := by
          show (deletePosition db j).2 = db
          unfold deletePosition
          rw [if_neg hc, hm]
        rw [hsame]
        exact ⟨hlt, hall⟩
      | some r =>
        have hdb : applyOp db (PosOp.delete j) =
            { db with positions := db.positions.filter (fun p => p.id != j) } := by
          show (deletePosition db j).2 = _
          unfold deletePosition
          rw [if_neg hc, hm]
        rw [hdb]
        refine ⟨hlt, ?_⟩
        intro q hq
        have hq' : (db.positions.filter (fun p => p.id != j)).find?
            (fun p => p.id == i) = some q := hq
        by_cases hij : i = j
        · subst hij
          rw [find?_filter_none _ _ _ ?hneg] at hq'
          case hneg =>
            intro x hx
            simp only [beq_iff_eq] at hx
            simp [bne, hx]
          cases hq'
        · rw [find?_filter_of_imp _ _ _ ?hpos] at hq'
          case hpos =>
            intro x hx
            simp only [beq_iff_eq] at hx
            simp [bne, hx]
            omega
          exact hall q hq'

theorem closedStays_runOps (db : Db) (ops : List PosOp) (i : Nat)
    (hlt : i < db.nextId)
    (hall : ∀ q, findPos db i = some q → q.status = PStatus.CLOSED) :
    i < (runOps db ops).nextId ∧
    ∀ q, findPos (runOps db ops) i = some q → q.status = PStatus.CLOSED := by
  induction ops generalizing db with
  | nil => exact ⟨hlt, hall⟩
  | cons op ops ih =>
    obtain ⟨h1, h2⟩ := closedStays_applyOp db op i hlt hall
    exact ih (applyOp db op) h1 h2

/-- Claim C4: over every sequence of position operations, CLOSED is
terminal: a position found CLOSED keeps status CLOSED under any further
create, close, update or delete, and any further close attempt on it
fails, so a position transitions from OPEN to CLOSED at most once. -/
theorem closed_position_terminal (db : Db) (i : Nat) (p : Position) (ops : List PosOp)
    (hwf : ∀ q ∈ db.positions, q.id < db.nextId)
    (hfind : findPos db i = some p) (hc : p.status = PStatus.CLOSED) :
    (∀ q, findPos (runOps db ops) i = some q → q.status = PStatus.CLOSED) ∧
    (∀ inp : ClosePositionInput, inp.positionId = i →
      ∃ e, (closePosition (runOps db ops) inp).1 = Except.error e) := by
  have hmem := List.mem_of_find?_eq_some hfind
  have hbeq := List.find?_some hfind
  have hid : p.id = i := by simpa using hbeq
  have hlt : i < db.nextId := hid ▸ hwf p hmem
  obtain ⟨hlt', hall'⟩ := closedStays_runOps db ops i hlt
    (fun q hq => by
      rw [hfind] at hq
      rw [← Option.some.inj hq]
      exact hc)
  refine ⟨hall', ?_⟩
  intro inp hinp
  cases hm : findPos (runOps db ops) inp.positionId with
  | none =>
    refine ⟨AppError.notFound, ?_⟩
    show (closePosition (runOps db ops) inp).1 = Except.error AppError.notFound
    unfold closePosition
    rw [hm]
  | some q =>
    have hqc : q.status = PStatus.CLOSED := hall' q (by rw [← hinp]; exact hm)
    have hno : ¬ q.status = PStatus.OPEN := by
      rw [hqc]
      intro hcontra
      cases hcontra
    refine ⟨AppError.invalidState, ?_⟩
    unfold closePosition
    rw [hm]
    simp [hno]

/-- Witness for closed_position_terminal on the sample store at the CLOSED
position 4 and the empty operation sequence. -/
theorem closed_position_terminal_witness :
    (∀ q, findPos (runOps sampleDb []) 4 = some q → q.status = PStatus.CLOSED) ∧
    (∀ inp : ClosePositionInput, inp.positionId = 4 →
      ∃ e, (closePosition (runOps sampleDb []) inp).1 = Except.error e) :=
  closed_position_terminal sampleDb 4 closedSample [] (by decide) (by rfl) (by rfl)

/-- Claim C6: deleting a Position, Exchange, Stock or User with at least
one dependent row (transaction, stock, position, position respectively)
fails with ConflictError and leaves the store unchanged; with zero
dependent rows the delete succeeds and removes the entity. -/
theorem delete_guard_dependents (db : Db) :
    (∀ i, 0 < txCountOf db i →
      deletePosition db i = (Except.error AppError.conflict, db)) ∧
    (∀ i p, txCountOf db i = 0 → findPos db i = some p →
      (deletePosition db i).1 = Except.ok () ∧
      findPos (deletePosition db i).2 i = none) ∧
    (∀ i, 0 < stockCountOf db i →
      deleteExchange db i = (Except.error AppError.conflict, db)) ∧
    (∀ i e, stockCountOf db i = 0 → findExchange db i = some e →
      (deleteExchange db i).1 = Except.ok () ∧
      findExchange (deleteExchange db i).2 i = none) ∧
    (∀ i, 0 < posCountOfStock db i →
      deleteStock db i = (Except.error AppError.conflict, db)) ∧
    (∀ i s, posCountOfStock db i = 0 → findStock db i = some s →
      (deleteStock db i).1 = Except.ok () ∧
      findStock (deleteStock db i).2 i = none) ∧
    (∀ i, 0 < posCountOfUser db i →
      deleteUser db i = (Except.error AppError.conflict, db)) ∧
    (∀ i u, posCountOfUser db i = 0 → findUser db i = some u →
      (deleteUser db i).1 = Except.ok () ∧
      findUser (deleteUser db i).2 i = none) := by
  refine ⟨?_, ?_, ?_, ?_, ?_, ?_, ?_, ?_⟩
  · intro i h
    unfold deletePosition
    rw [if_pos h]
  · intro i p h0 hm
    have hno : ¬ 0 < txCountOf db i := by omega
    have hdel : deletePosition db i =
        (Except.ok (), { db with positions := db.positions.filter (fun p => p.id != i) }) := by
      unfold deletePosition
      rw [if_neg hno, hm]
    rw [hdel]
    refine ⟨rfl, ?_⟩
    show (db.positions.filter (fun p => p.id != i)).find? (fun p => p.id == i) = none
    apply find?_filter_none
    intro x hx
    simp only [beq_iff_eq] at hx
    simp [bne, hx]
  · intro i h
    unfold deleteExchange
    rw [if_pos h]
  · intro i e h0 hm
    have hno : ¬ 0 < stockCountOf db i := by omega
    have hdel : deleteExchange db i =
        (Except.ok (), { db with exchanges := db.exchanges.filter (fun e => e.id != i) }) := by
      unfold deleteExchange
      rw [if_neg hno, hm]
    rw [hdel]
    refine ⟨rfl, ?_⟩
    show (db.exchanges.filter (fun e => e.id != i)).find? (fun e => e.id == i) = none
    apply find?_filter_none
    intro x hx
    simp only [beq_iff_eq] at hx
    simp [bne, hx]
  · intro i h
    unfold deleteStock
    rw [if_pos h]
  · intro i s h0 hm
    have hno : ¬ 0 < posCountOfStock db i := by omega
    have hdel : deleteStock db i =
        (Except.ok (), { db with
          priceHistory := db.priceHistory.filter (fun b => b.stockId != i)
          stocks := db.stocks.filter (fun s => s.id != i) }) := by
      unfold deleteStock
      rw [if_neg hno, hm]
    rw [hdel]
    refine ⟨rfl, ?_⟩
    show (db.stocks.filter (fun s => s.id != i)).find? (fun s => s.id == i) = none
    apply find?_filter_none
    intro x hx
    simp only [beq_iff_eq] at hx
    simp [bne, hx]
  · intro i h
    unfold deleteUser
    rw [if_pos h]
  · intro i u h0 hm
    have hno : ¬ 0 < posCountOfUser db i := by omega
    have hdel : deleteUser db i =
        (Except.ok (), { db with users := db.users.filter (fun u => u.id != i) }) := by
      unfold deleteUser
      rw [if_neg hno, hm]
    rw [hdel]
    refine ⟨rfl, ?_⟩
    show (db.users.filter (fun u => u.id != i)).find? (fun u => u.id == i) = none
    apply find?_filter_none
    intro x hx
    simp only [beq_iff_eq] at hx
    simp [bne, hx]

/-- Witness for delete_guard_dependents on the sample store: position 4
(one transaction), exchange 5 (one stock), stock 3 (two positions) and
user 2 (two positions) are all protected, while position 1 (no
transaction) is deleted and removed. -/
theorem delete_guard_dependents_witness :
    deletePosition sampleDb 4 = (Except.error AppError.conflict, sampleDb) ∧
    ((deletePosition sampleDb 1).1 = Except.ok () ∧
      findPos (deletePosition sampleDb 1).2 1 = none) ∧
    deleteExchange sampleDb 5 = (Except.error AppError.conflict, sampleDb) ∧
    deleteStock sampleDb 3 = (Except.error AppError.conflict, sampleDb) ∧
    deleteUser sampleDb 2 = (Except.error AppError.conflict, sampleDb) := by
  refine ⟨?_, ?_, ?_, ?_, ?_⟩
  · exact (delete_guard_dependents sampleDb).1 4 (by decide)
  · exact (delete_guard_dependents sampleDb).2.1 1 openSample (by decide) (by rfl)
  · exact (delete_guard_dependents sampleDb).2.2.1 5 (by decide)
  · exact (delete_guard_dependents sampleDb).2.2.2.2.1 3 (by decide)
  · exact (delete_guard_dependents sampleDb).2.2.2.2.2.2.1 2 (by decide)

/-- Claim C7: every row returned by getPriceAlerts has a non-null
targetPrice and its triggered flag is true exactly when the most recent
price history close for the stock exists and is at least the target
price; the triggeredAlerts list is exactly the triggered subset. -/
theorem price_alerts_triggered_iff (db : Db) (uid : Nat) :
    (∀ e ∈ (getPriceAlerts db uid).1,
      e.item.targetPrice ≠ none ∧
      (e.triggered = true ↔
        ∃ bar t, latestPrice db e.item.stockId = some bar ∧
          e.item.targetPrice = some t ∧ t ≤ bar.close)) ∧
    (getPriceAlerts db uid).2 = (getPriceAlerts db uid).1.filter (fun e => e.triggered) := by
  constructor
  · intro e he
    have he' : e ∈ (db.watchlist.filter
        (fun w => w.userId == uid && w.targetPrice.isSome)).map (alertFor db) := he
    obtain ⟨w, hw, hfw⟩ := List.mem_map.mp he'
    obtain ⟨hwmem, hwpred⟩ := List.mem_filter.mp hw
    have hts : w.targetPrice.isSome = true := by
      simp only [Bool.and_eq_true] at hwpred
      exact hwpred.2
    obtain ⟨t, ht⟩ := Option.isSome_iff_exists.mp hts
    subst hfw
    constructor
    · show w.targetPrice ≠ none
      rw [ht]
      exact Option.some_ne_none t
    · cases hlp : latestPrice db w.stockId with
      | none =>
        have htrig : (alertFor db w).triggered = false := by
          simp [alertFor, hlp]
        constructor
        · intro h
          rw [htrig] at h
          cases h
        · rintro ⟨bar, t', hbar, -, -⟩
          have hbar' : latestPrice db (alertFor db w).item.stockId =
              latestPrice db w.stockId := rfl
          rw [hbar', hlp] at hbar
          cases hbar
      | some bar =>
        have htrig : (alertFor db w).triggered = decide (t ≤ bar.close) := by
          simp [alertFor, hlp, ht]
        rw [htrig]
        constructor
        · intro h
          exact ⟨bar, t, hlp, ht, of_decide_eq_true h⟩
        · rintro ⟨bar', t', hbar', ht', hle⟩
          have hbars : some bar = some bar' := by
            rw [← hlp]
            exact hbar'
          have hts' : some t = some t' := by
            rw [← ht]
            exact ht'
          rw [← Option.some.inj hbars] at hle
          rw [← Option.some.inj hts'] at hle
          exact decide_eq_true hle
  · rfl

/-- Witness for price_alerts_triggered_iff on the sample store and user 2,
whose single watchlist row has target 50 against a latest close of 60. -/
theorem price_alerts_triggered_iff_witness :
    (∀ e ∈ (getPriceAlerts sampleDb 2).1,
      e.item.targetPrice ≠ none ∧
      (e.triggered = true ↔
        ∃ bar t, latestPrice sampleDb e.item.stockId = some bar ∧
          e.item.targetPrice = some t ∧ t ≤ bar.close)) ∧
    (getPriceAlerts sampleDb 2).2 =
      (getPriceAlerts sampleDb 2).1.filter (fun e => e.triggered) :=
  price_alerts_triggered_iff sampleDb 2

/-- Claim C8: a transaction update providing quantity or price recomputes
totalValue from the merged (new-or-existing) quantity and price and fails
with NotFoundError on an unknown id; an update providing neither merges
the other fields directly and leaves totalValue (and quantity and price)
unchanged. -/
theorem tx_update_recomputes_total (db : Db) (inp : UpdateTransactionInput) :
    ((inp.quantity.isSome ∨ inp.price.isSome) → findTx db inp.id = none →
      (updateTransaction db inp).1 = Except.error AppError.notFound) ∧
    (∀ cur, findTx db inp.id = some cur →
      (inp.quantity.isSome ∨ inp.price.isSome) →
      ∃ t', (updateTransaction db inp).1 = Except.ok t' ∧
        t'.quantity = inp.quantity.getD cur.quantity ∧
        t'.price = inp.price.getD cur.price ∧
        t'.totalValue =
          ((inp.quantity.getD cur.quantity : Nat) : ℚ) * inp.price.getD cur.price) ∧
    (∀ cur, findTx db inp.id = some cur →
      inp.quantity = none → inp.price = none →
      ∃ t', (updateTransaction db inp).1 = Except.ok t' ∧
        t'.totalValue = cur.totalValue ∧
        t'.quantity = cur.quantity ∧
        t'.price = cur.price ∧
        t'.date = inp.date.getD cur.date ∧
        t'.fees = inp.fees.getD cur.fees ∧
        t'.executionTime = mergeOpt inp.executionTime cur.executionTime ∧
        t'.brokerRef = mergeOpt inp.brokerRef cur.brokerRef ∧
        t'.orderType = mergeOpt inp.orderType cur.orderType ∧
        t'.notes = mergeOpt inp.notes cur.notes) := by
  refine ⟨?_, ?_, ?_⟩
  · intro hprov hm
    have hcond : (inp.quantity.isSome || inp.price.isSome) = true := by
      rcases hprov with h | h <;> simp [h]
    unfold updateTransaction
    rw [if_pos hcond, hm]
  · intro cur hm hprov
    have hcond : (inp.quantity.isSome || inp.price.isSome) = true := by
      rcases hprov with h | h <;> simp [h]
    have hok : (updateTransaction db inp).1 = Except.ok
        { mergeOtherTxFields cur inp with
            quantity := inp.quantity.getD cur.quantity
            price := inp.price.getD cur.price
            totalValue :=
              ((inp.quantity.getD cur.quantity : Nat) : ℚ) * inp.price.getD cur.price } := by
      unfold updateTransaction
      rw [if_pos hcond, hm]
    exact ⟨_, hok, rfl, rfl, rfl⟩
  · intro cur hm hq hp
    have hcond : ¬ (inp.quantity.isSome || inp.price.isSome) = true := by
      simp [hq, hp]
    have hok : (updateTransaction db inp).1 = Except.ok (mergeOtherTxFields cur inp) := by
      unfold updateTransaction
      rw [if_neg hcond, hm]
    exact ⟨mergeOtherTxFields cur inp, hok, rfl, rfl, rfl, rfl, rfl, rfl, rfl, rfl, rfl⟩

/-- Witness for tx_update_recomputes_total on the sample store: updating
the price of transaction 6 to 110 recomputes totalValue to 10 * 110. -/
theorem tx_update_recomputes_total_witness :
    ∃ t', (updateTransaction sampleDb
        { id := 6
          date := none
          quantity := none
          price := some 110
          fees := none
          executionTime := none
          brokerRef := none
          orderType := none
          notes := none }).1 = Except.ok t' ∧
      t'.quantity = 10 ∧
      t'.price = 110 ∧
      t'.totalValue = 10 * 110 := by
  obtain ⟨t', hok, h1, h2, h3⟩ :=
    (tx_update_recomputes_total sampleDb
      { id := 6
        date := none
        quantity := none
        price := some 110
        fees := none
        executionTime := none
        brokerRef := none
        orderType := none
        notes := none }).2.1 buyTxSample (by rfl) (Or.inr (by decide))
  refine ⟨t', hok, ?_, ?_, ?_⟩
  · rw [h1]; rfl
  · rw [h2]; rfl
  · rw [h3]; norm_num [buyTxSample]

/-- Claim C9: every list endpoint (positions, transactions, users, stocks,
watchlist) returns at most limit items, a total equal to the number of
rows matching all provided filters, and hasMore equal to
offset + limit < total. -/
theorem list_pagination_contract (db : Db) (pin : GetPositionsInput)
    (tin : GetTransactionsInput) (stin : GetStocksInput) (uid ulim uoff wlim woff : Nat) :
    ((listPositions db pin).1.length ≤ pin.limit ∧
      (listPositions db pin).2.1 = (db.positions.filter (posMatches pin)).length ∧
      (listPositions db pin).2.2 =
        decide (pin.offset + pin.limit < (listPositions db pin).2.1)) ∧
    ((listTransactions db tin).1.length ≤ tin.limit ∧
      (listTransactions db tin).2.1 = (db.transactions.filter (txMatches db tin)).length ∧
      (listTransactions db tin).2.2 =
        decide (tin.offset + tin.limit < (listTransactions db tin).2.1)) ∧
    ((listUsers db ulim uoff).1.length ≤ ulim ∧
      (listUsers db ulim uoff).2.1 = db.users.length ∧
      (listUsers db ulim uoff).2.2 =
        decide (uoff + ulim < (listUsers db ulim uoff).2.1)) ∧
    ((listStocks db stin).1.length ≤ stin.limit ∧
      (listStocks db stin).2.1 = (db.stocks.filter (stockMatches stin)).length ∧
      (listStocks db stin).2.2 =
        decide (stin.offset + stin.limit < (listStocks db stin).2.1)) ∧
    ((listWatchlist db uid wlim woff).1.length ≤ wlim ∧
      (listWatchlist db uid wlim woff).2.1 =
        (db.watchlist.filter (fun w => w.userId == uid)).length ∧
      (listWatchlist db uid wlim woff).2.2 =
        decide (woff + wlim < (listWatchlist db uid wlim woff).2.1)) := by
  refine ⟨⟨?_, rfl, rfl⟩, ⟨?_, rfl, rfl⟩, ⟨?_, rfl, rfl⟩, ⟨?_, rfl, rfl⟩, ⟨?_, rfl, rfl⟩⟩
  · exact List.length_take_le _ _
  · exact List.length_take_le _ _
  · exact List.length_take_le _ _
  · exact List.length_take_le _ _
  · exact List.length_take_le _ _

/-- Claim C10: for a user with zero CLOSED positions both the RPC
portfolio summary and the REST portfolio handler report avgReturn 0 (the
guarded division is never reached), totalRealizedPnL 0 and
totalClosedPositions 0. -/
theorem empty_closed_portfolio_zero (db : Db) (uid : Nat)
    (h : db.positions.filter
      (fun p => p.userId == uid && decide (p.status = PStatus.CLOSED)) = []) :
    (getPortfolioSummary db uid).avgReturn = 0 ∧
    (getPortfolioSummary db uid).totalRealizedPnL = 0 ∧
    (getPortfolioSummary db uid).totalClosedPositions = 0 ∧
    (portfolioSummaryRest db uid).avgReturn = 0 ∧
    (portfolioSummaryRest db uid).totalRealizedPnL = 0 ∧
    (portfolioSummaryRest db uid).totalClosedPositions = 0 := by
  refine ⟨?_, ?_, ?_, ?_, ?_, ?_⟩ <;>
    simp [getPortfolioSummary, portfolioSummaryRest, h]

/-- Witness for empty_closed_portfolio_zero: user 99 of the sample store
has no closed positions, so both summaries report zeros. -/
theorem empty_closed_portfolio_zero_witness :
    (getPortfolioSummary sampleDb 99).avgReturn = 0 ∧
    (getPortfolioSummary sampleDb 99).totalRealizedPnL = 0 ∧
    (getPortfolioSummary sampleDb 99).totalClosedPositions = 0 ∧
    (portfolioSummaryRest sampleDb 99).avgReturn = 0 ∧
    (portfolioSummaryRest sampleDb 99).totalRealizedPnL = 0 ∧
    (portfolioSummaryRest sampleDb 99).totalClosedPositions = 0 :=
  empty_closed_portfolio_zero sampleDb 99 (by rfl)
